import Mathlib

/-!
# govips: call-event log, format resolvers and image entry points

A shallow embedding of `image.go` and `bridge.go`.

* Go pointers to `Image` values and the backing arrays of `[]*CallEvent`
  slices live in an explicit memory `Mem`; a method with a pointer receiver
  takes the memory and the address of its receiver and returns the new memory.
* The libvips C functions and the dispatcher (`vipsCall`, `vipsCallString`)
  are fields of the environment `Vips`; every dispatcher call an entry point
  makes is recorded in the trace it returns.
* `startupIfNeeded()` and `runtime.SetFinalizer` have no effect on the values
  computed here and are left out.
-/

set_option linter.dupNamespace false

namespace Govips

/-- A Go string. -/
abbrev GoString := String

/-! ## Options -/

/-- Direction of an option: into the operation or out of it. -/
inductive Direction where
  | Input
  | Output
  deriving DecidableEq, Repr

/-- Kind of an option. -/
inductive Kind where
  | Bool
  | Int
  | Double
  | String
  | Blob
  | ImageHandle
  | ArrayOfDouble
  | ArrayOfImage
  | Interpolator
  deriving DecidableEq, Repr

/-- One byte of a Go `[]byte`. -/
abbrev Byte := Fin 256

/-- Payload of an option or of a boxed value. A Go `float64` is carried as its
IEEE-754 bit pattern; an image is the address of its `Image` wrapper; an
output option carries the address of the caller's slot. -/
inductive Payload where
  | bool (b : Bool)
  | int (i : Int)
  | double (bits : Nat)
  | string (s : String)
  | blob (bytes : List Byte)
  | image (p : Nat)
  | slot (addr : Nat)
  deriving DecidableEq, Repr

/-- Modelled from the spec: the `OptionValue` record of the missing options
file (name, direction, kind, kind-dependent value). -/
structure OptionValue where
  name : String
  direction : Direction
  kind : Kind
  value : Payload
  deriving DecidableEq, Repr

/-- Modelled from the spec: constructor `StringInput(name, value)`. -/
def StringInput (name : String) (v : String) : OptionValue :=
  ⟨name, Direction.Input, Kind.String, Payload.string v⟩

/-- Modelled from the spec: constructor `IntInput(name, value)`. -/
def IntInput (name : String) (v : Int) : OptionValue :=
  ⟨name, Direction.Input, Kind.Int, Payload.int v⟩

/-- Modelled from the spec: constructor `BoolInput(name, value)`. -/
def BoolInput (name : String) (v : Bool) : OptionValue :=
  ⟨name, Direction.Input, Kind.Bool, Payload.bool v⟩

/-- Modelled from the spec: constructor `DoubleInput(name, value)`. -/
def DoubleInput (name : String) (bits : Nat) : OptionValue :=
  ⟨name, Direction.Input, Kind.Double, Payload.double bits⟩

/-- Modelled from the spec: constructor `BlobInput(name, blob)`. -/
def BlobInput (name : String) (bytes : List Byte) : OptionValue :=
  ⟨name, Direction.Input, Kind.Blob, Payload.blob bytes⟩

/-- Modelled from the spec: constructor `ImageInput(name, image)`. -/
def ImageInput (name : String) (p : Nat) : OptionValue :=
  ⟨name, Direction.Input, Kind.ImageHandle, Payload.image p⟩

/-- Modelled from the spec: constructor `ImageOutput(name, &slot)`. -/
def ImageOutput (name : String) (addr : Nat) : OptionValue :=
  ⟨name, Direction.Output, Kind.ImageHandle, Payload.slot addr⟩

/-- Modelled from the spec: constructor `BlobOutput(name, &slot)`. -/
def BlobOutput (name : String) (addr : Nat) : OptionValue :=
  ⟨name, Direction.Output, Kind.Blob, Payload.slot addr⟩

/-- Modelled from the spec: constructor `BoolOutput(name, &slot)`. -/
def BoolOutput (name : String) (addr : Nat) : OptionValue :=
  ⟨name, Direction.Output, Kind.Bool, Payload.slot addr⟩

/-- Modelled from the spec: constructor `IntOutput(name, &slot)`. -/
def IntOutput (name : String) (addr : Nat) : OptionValue :=
  ⟨name, Direction.Output, Kind.Int, Payload.slot addr⟩

/-- Modelled from the spec: constructor `DoubleOutput(name, &slot)`. -/
def DoubleOutput (name : String) (addr : Nat) : OptionValue :=
  ⟨name, Direction.Output, Kind.Double, Payload.slot addr⟩

/-- Modelled from the spec: constructor `StringOutput(name, &slot)`. -/
def StringOutput (name : String) (addr : Nat) : OptionValue :=
  ⟨name, Direction.Output, Kind.String, Payload.slot addr⟩

/-- The option set `Options` with its field `Options` (`c.Options.Options`). -/
structure Options where
  Options : List OptionValue
  deriving DecidableEq, Repr

/-- Modelled from the spec: `NewOptions(...)` builds a set from zero or more
options, in the order given; uniqueness by name is not enforced here. -/
def NewOptions (opts : List OptionValue) : Options := ⟨opts⟩

/-- Modelled from the spec: merging one entry into a set replaces the existing
entry of the same name in place (by value, not by appending a duplicate), and
appends the entry when the name is new. -/
def mergeOption (acc : List OptionValue) (o : OptionValue) : List OptionValue :=
  if acc.any (fun e => e.name == o.name) then
    acc.map (fun e => if e.name == o.name then o else e)
  else
    acc ++ [o]

/-- Modelled from the spec: `With(more...)` of the missing options file. The
merged set is resolved at merge time: the entries of the set and then each of
`more` are merged in, later entries of a name overriding earlier ones, an
entry keeping the position at which its name was first seen. -/
def Options.With (t : Govips.Options) (more : List OptionValue) :
    Govips.Options :=
  ⟨(t.Options ++ more).foldl mergeOption []⟩

/-- The entry of a set bound to a name (the first one carrying it). -/
def Options.lookup (t : Govips.Options) (n : String) : Option OptionValue :=
  t.Options.find? (fun e => e.name == n)

/-- The last entry of a list of options carrying a name. -/
def lastNamed (l : List OptionValue) (n : String) : Option OptionValue :=
  l.reverse.find? (fun e => e.name == n)

/-- The names of a list in order of first occurrence. -/
def firstSeen (l : List String) : List String := l.reverse.dedup.reverse

/-! ## Call events and memory -/

/-- The struct `CallEvent`; `Options` is a `*Options`, `none` being nil. -/
structure CallEvent where
  Name : String
  Options : Option Options
  deriving DecidableEq, Repr

/-- An element of a `[]*CallEvent`: `none` is the nil pointer. -/
abbrev EventPtr := Option CallEvent

/-- A Go slice header over a backing array of `*CallEvent`: the array, the
offset of the slice in it, its length and its capacity. -/
structure Slice where
  arr : Nat
  off : Nat
  len : Nat
  cap : Nat
  deriving DecidableEq, Repr

/-- The nil slice: length and capacity zero. -/
def Slice.nil : Slice := ⟨0, 0, 0, 0⟩

/-- The struct `Image`: the native handle (`none` is NULL) and the log. -/
structure Image where
  image : Option Nat
  callEvents : Slice
  deriving DecidableEq, Repr

/-- The memory: backing arrays (cells default to nil), the next free array,
the `Image` values by address, the next free address, and the capacity the
runtime picks when `append` has to reallocate (old capacity, needed length). -/
structure Mem where
  arrays : Nat → Nat → EventPtr
  nextArr : Nat
  images : Nat → Image
  nextImg : Nat
  growslice : Nat → Nat → Nat

/-- The elements of a slice, in order. -/
def Mem.read (M : Mem) (s : Slice) : List EventPtr :=
  (List.range s.len).map (fun k => M.arrays s.arr (s.off + k))

/-- A slice refers to memory that has been allocated (or is empty). -/
def Mem.allocated (M : Mem) (s : Slice) : Prop :=
  s.len = 0 ∨ s.arr < M.nextArr

instance (M : Mem) (s : Slice) : Decidable (M.allocated s) := by
  unfold Mem.allocated; exact inferInstance

/-- Go's builtin `append(s, xs...)`: when the capacity suffices the elements
are written into the backing array right after the slice, otherwise a new
array receives the old elements followed by the new ones. -/
def Mem.append (M : Mem) (s : Slice) (xs : List EventPtr) : Mem × Slice :=
  if s.len + xs.length ≤ s.cap then
    ({ M with
        arrays := fun a i =>
          if a = s.arr ∧ s.off + s.len ≤ i ∧ i < s.off + s.len + xs.length then
            xs.getD (i - (s.off + s.len)) none
          else M.arrays a i },
     { s with len := s.len + xs.length })
  else
    ({ M with
        arrays := fun a i =>
          if a = M.nextArr then (M.read s ++ xs).getD i none else M.arrays a i
        nextArr := M.nextArr + 1 },
     ⟨M.nextArr, 0, s.len + xs.length,
      max (s.len + xs.length) (M.growslice s.cap (s.len + xs.length))⟩)

/-- Assignment to the field `callEvents` of the image at address `i`. -/
def Mem.setCallEvents (M : Mem) (i : Nat) (s : Slice) : Mem :=
  { M with
      images := fun p =>
        if p = i then { M.images p with callEvents := s } else M.images p }

/-- The function `newImage`: a new `Image` holding the handle, with the zero
value (nil) for `callEvents`; returns its address. -/
def newImage (M : Mem) (vipsImage : Option Nat) : Mem × Nat :=
  ({ M with
      images := fun p =>
        if p = M.nextImg then ⟨vipsImage, Slice.nil⟩ else M.images p
      nextImg := M.nextImg + 1 },
   M.nextImg)

/-- The method `(i *Image) CopyEvents(events)`. -/
def CopyEvents (M : Mem) (i : Nat) (events : Slice) : Mem :=
  if events.len > 0 then
    let r := M.append (M.images i).callEvents (M.read events)
    r.1.setCallEvents i r.2
  else M

/-- The method `(i *Image) LogCallEvent(name, options)`. -/
def LogCallEvent (M : Mem) (i : Nat) (name : String)
    (options : Option Options) : Mem :=
  let r := M.append (M.images i).callEvents [some ⟨name, options⟩]
  r.1.setCallEvents i r.2

/-- The method `(i *Image) CallEventLog()`: returns the slice, memory as is. -/
def CallEventLog (M : Mem) (i : Nat) : Mem × Slice :=
  (M, (M.images i).callEvents)

/-- The history of the image at address `i`, as a list. -/
def history (M : Mem) (i : Nat) : List EventPtr :=
  (CallEventLog M i).1.read (CallEventLog M i).2

/-! ## Rendering an event -/

/-- Go's `strings.Join`: nothing for no element, else the first element
followed by the separator and each further element. -/
def stringsJoin (elems : List String) (sep : String) : String :=
  match elems with
  | [] => ""
  | e :: rest => rest.foldl (fun b s => b ++ sep ++ s) e

/-- The loop of `CallEvent.String`: `args = append(args, o.String())` for each
option in iteration order; `render` is the method `String` of an option. -/
def collectArgs (render : OptionValue → String) (opts : List OptionValue) :
    List String :=
  opts.foldl (fun args o => args ++ [render o]) []

/-- The method `(c CallEvent) String()`, with `fmt.Sprintf("%s(%s)", ...)`;
`none` is the nil dereference of `c.Options`. -/
def CallEvent.String (render : OptionValue → GoString) (c : CallEvent) :
    Option GoString :=
  match c.Options with
  | none => none
  | some o =>
    some (c.Name ++ "(" ++ stringsJoin (collectArgs render o.Options) ", " ++ ")")

/-- The arguments a rendering lists, `none` on the nil dereference. -/
def CallEvent.args (render : OptionValue → GoString) (c : CallEvent) :
    Option (List GoString) :=
  match c.Options with
  | none => none
  | some o => some (collectArgs render o.Options)

/-! ## Errors, the environment and the resolvers -/

/-- The errors of the package: the two sentinel values named in the source,
the `InvalidOptionUse` of the option contract, and an error built from a
message (`errors.New`, dispatcher failures). -/
inductive Error where
  | ErrUnsupportedImageFormat
  | ErrInvalidInterpolator
  | InvalidOptionUse
  | message (text : String)
  deriving DecidableEq, Repr

/-- The enumeration `ImageType`. -/
abbrev ImageType := Int

/-- Modelled from the spec: a `Blob` owns a byte buffer. -/
structure Blob where
  bytes : List Byte
  deriving DecidableEq, Repr

/-- Modelled from the spec: `Blob.ToBytes()` gives the bytes of the buffer. -/
def Blob.ToBytes (b : Blob) : List Byte := b.bytes

/-- Modelled from the spec: `NewBlob(bytes)` wraps caller-supplied bytes. -/
def NewBlob (bytes : List Byte) : Blob := ⟨bytes⟩

/-- What a dispatcher call leaves behind: its error (`none` is nil) and what
it stored through the image and blob output slots (`none`: left nil). -/
structure CallOutcome where
  err : Option Error
  outImage : Option Nat
  outBlob : Option Blob
  deriving DecidableEq, Repr

/-- The calls an entry point makes into the registry and the dispatcher. -/
inductive Effect where
  | vips_foreign_find_load (filename : String)
  | vips_foreign_find_load_buffer (bytes : List Byte)
  | vips_foreign_find_save (filename : String)
  | vips_foreign_find_save_buffer (filename : String)
  | vipsCall (operationName : String) (options : Options)
  | vipsCallString (operationName : String) (options : Options)
      (optionString : String)
  deriving DecidableEq, Repr

/-- An effect is a dispatched operation call. -/
def Effect.isCall : Effect → Bool
  | Effect.vipsCall _ _ => true
  | Effect.vipsCallString _ _ _ => true
  | _ => false

/-- The environment: the libvips C functions called through cgo (a returned
`none` is the NULL pointer; string arguments are what `C.CString` passes and
results what `C.GoString` reads back), and the parts of the package the
entry points use that are declared outside these files: the dispatcher
functions `vipsCall` and `vipsCallString`, the table `imageTypeExtensionMap`
and the constant `AccessRandom`. -/
structure Vips where
  vips_foreign_find_load : String → Option String
  vips_foreign_find_load_buffer : List Byte → Nat → Option String
  vips_foreign_find_save : String → Option String
  vips_foreign_find_save_buffer : String → Option String
  vips__filename_split8 : String → String × String
  vips_image_new_from_memory_copy :
    List Byte → Nat → Int → Int → Int → Int → Option Nat
  vips_image_write_to_memory : Option Nat → Option (List Byte)
  vipsCall : String → Options → CallOutcome
  vipsCallString : String → Options → String → CallOutcome
  imageTypeExtensionMap : List (ImageType × String)
  AccessRandom : Int

/-- Conversion of a Go `int` to `C.int`: wraps to 32 bits, two's complement
(`2147483648` is `2 ^ 31`, `4294967296` is `2 ^ 32`). -/
def cInt (n : Int) : Int := (n + 2147483648) % 4294967296 - 2147483648

/-- The function `vipsForeignFindLoad`. -/
def vipsForeignFindLoad (V : Vips) (filename : String) :
    (String × Option Error) × List Effect :=
  (match V.vips_foreign_find_load filename with
    | none => ("", some Error.ErrUnsupportedImageFormat)
    | some c_operationName => (c_operationName, none),
   [Effect.vips_foreign_find_load filename])

/-- The function `vipsForeignFindLoadBuffer`. -/
def vipsForeignFindLoadBuffer (V : Vips) (bytes : List Byte) :
    (String × Option Error) × List Effect :=
  (match V.vips_foreign_find_load_buffer bytes bytes.length with
    | none => ("", some Error.ErrUnsupportedImageFormat)
    | some c_operationName => (c_operationName, none),
   [Effect.vips_foreign_find_load_buffer bytes])

/-- The function `vipsForeignFindSave`. -/
def vipsForeignFindSave (V : Vips) (filename : String) :
    (String × Option Error) × List Effect :=
  (match V.vips_foreign_find_save filename with
    | none => ("", some Error.ErrUnsupportedImageFormat)
    | some c_operationName => (c_operationName, none),
   [Effect.vips_foreign_find_save filename])

/-- The function `vipsForeignFindSaveBuffer`. -/
def vipsForeignFindSaveBuffer (V : Vips) (filename : String) :
    (String × Option Error) × List Effect :=
  (match V.vips_foreign_find_save_buffer filename with
    | none => ("", some Error.ErrUnsupportedImageFormat)
    | some c_operationName => (c_operationName, none),
   [Effect.vips_foreign_find_save_buffer filename])

/-- The function `vipsFilenameSplit8`: the two strings the C function writes. -/
def vipsFilenameSplit8 (V : Vips) (file : String) : String × String :=
  V.vips__filename_split8 file

/-! ## Entry points -/

/-- The address of the local variable (`out`, `blob`) whose address an entry
point hands to its output option. -/
def localSlot : Nat := 0

/-- The function `NewImageFromMemory`; `C.int(...)` and
`C.VipsBandFormat(format)` convert to 32 bits. -/
def NewImageFromMemory (V : Vips) (M : Mem) (bytes : List Byte)
    (width height bands : Int) (format : Int) :
    Mem × (Option Nat × Option Error) :=
  let vipsImage := V.vips_image_new_from_memory_copy bytes bytes.length
    (cInt width) (cInt height) (cInt bands) (cInt format)
  ((newImage M vipsImage).1, (some (newImage M vipsImage).2, none))

/-- The function `NewImageFromFile`: the image (`none` is nil), the error, and
the calls made. -/
def NewImageFromFile (V : Vips) (path : String) (opts : List OptionValue) :
    (Option Nat × Option Error) × List Effect :=
  let split := vipsFilenameSplit8 V path
  let found := vipsForeignFindLoad V split.1
  match found.1.2 with
  | some _ => ((none, some Error.ErrUnsupportedImageFormat), found.2)
  | none =>
    let options := (NewOptions opts).With
      [StringInput "filename" split.1, ImageOutput "out" localSlot]
    let r := V.vipsCallString found.1.1 options split.2
    let trace := found.2 ++ [Effect.vipsCallString found.1.1 options split.2]
    match r.err with
    | some err => ((none, some err), trace)
    | none => ((r.outImage, none), trace)

/-- The function `NewImageFromBuffer`. -/
def NewImageFromBuffer (V : Vips) (bytes : List Byte) (opts : List OptionValue) :
    (Option Nat × Option Error) × List Effect :=
  let found := vipsForeignFindLoadBuffer V bytes
  match found.1.2 with
  | some err => ((none, some err), found.2)
  | none =>
    let blob := NewBlob bytes
    let options := (NewOptions opts).With
      [BlobInput "buffer" blob.bytes, IntInput "access" V.AccessRandom,
       ImageOutput "out" localSlot]
    let r := V.vipsCall found.1.1 options
    let trace := found.2 ++ [Effect.vipsCall found.1.1 options]
    match r.err with
    | some err => ((none, some err), trace)
    | none => ((r.outImage, none), trace)

/-- Go's `C.GoBytes(p, n)`: the first `n` bytes; a negative length panics
(`none`). -/
def GoBytes (data : List Byte) (n : Int) : Option (List Byte) :=
  if n < 0 then none else some (data.take n.toNat)

/-- The method `(i *Image) ToBytes()`: bytes (`none` is nil) and error; the
outer `none` is the panic of `C.GoBytes` on a size that wraps negative. -/
def ToBytes (V : Vips) (M : Mem) (i : Nat) :
    Option (Option (List Byte) × Option Error) :=
  match V.vips_image_write_to_memory (M.images i).image with
  | none => some (none, some (Error.message "Failed to write image to memory"))
  | some cData =>
    (GoBytes cData (cInt cData.length)).map (fun bytes => (some bytes, none))

/-- The method `(i *Image) WriteToBuffer(imageType, opts...)`; a tag missing
from the table gives the zero value, the empty suffix. -/
def WriteToBuffer (V : Vips) (i : Nat) (imageType : ImageType)
    (opts : List OptionValue) :
    (Option (List Byte) × Option Error) × List Effect :=
  let suffix := (V.imageTypeExtensionMap.lookup imageType).getD ""
  let split := vipsFilenameSplit8 V suffix
  let found := vipsForeignFindSaveBuffer V split.1
  match found.1.2 with
  | some err => ((none, some err), found.2)
  | none =>
    let options := (NewOptions opts).With
      [ImageInput "in" i, BlobOutput "buffer" localSlot]
    let r := V.vipsCallString found.1.1 options split.2
    let trace := found.2 ++ [Effect.vipsCallString found.1.1 options split.2]
    match r.err with
    | some err => ((none, some err), trace)
    | none =>
      match r.outBlob with
      | some blob => ((some blob.ToBytes, none), trace)
      | none => ((none, none), trace)

/-- The method `(i *Image) WriteToFile(path, opts...)`. -/
def WriteToFile (V : Vips) (i : Nat) (path : String) (opts : List OptionValue) :
    Option Error × List Effect :=
  let split := vipsFilenameSplit8 V path
  let found := vipsForeignFindSave V split.1
  match found.1.2 with
  | some err => (some err, found.2)
  | none =>
    let options := (NewOptions opts).With
      [ImageInput "in" i, StringInput "filename" split.1]
    ((V.vipsCallString found.1.1 options split.2).err,
     found.2 ++ [Effect.vipsCallString found.1.1 options split.2])

/-! ## Serialize and Deserialize -/

/-- Modelled from the spec: the representation the external call expects, a
boxed value tagged with its kind. -/
structure GValue where
  kind : Kind
  value : Payload
  deriving DecidableEq, Repr

/-- A payload is of the shape a kind holds as an input. -/
def payloadFits : Kind → Payload → Bool
  | Kind.Bool, Payload.bool _ => true
  | Kind.Int, Payload.int _ => true
  | Kind.Double, Payload.double _ => true
  | Kind.String, Payload.string _ => true
  | Kind.Blob, Payload.blob _ => true
  | Kind.ImageHandle, Payload.image _ => true
  | _, _ => false

/-- Modelled from the spec: `Serialize()` of the missing options file, defined
only for Input values: boxes the value under its kind; on the wrong direction
or an unsupported kind combination it fails with `InvalidOptionUse`. -/
def Serialize (o : OptionValue) : Except Error GValue :=
  if o.direction = Direction.Input ∧ payloadFits o.kind o.value = true then
    Except.ok ⟨o.kind, o.value⟩
  else
    Except.error Error.InvalidOptionUse

/-- The caller's slots, by address. -/
abbrev Slots := Nat → Option Payload

/-- Modelled from the spec: `Deserialize()` of the missing options file,
defined only for Output values: reads the external representation and writes
it into the caller's slot; it fails fast with `InvalidOptionUse` on the wrong
direction, when there is no representation yet, or when the representation
is of another kind. -/
def Deserialize (o : OptionValue) (rep : Option GValue) (slots : Slots) :
    Except Error Slots :=
  match o.direction, o.value, rep with
  | Direction.Output, Payload.slot addr, some g =>
    if g.kind = o.kind then
      Except.ok (fun a => if a = addr then some g.value else slots a)
    else
      Except.error Error.InvalidOptionUse
  | _, _, _ => Except.error Error.InvalidOptionUse

/-! ## Sample states -/

/-- The empty memory; its runtime reallocates to twice the needed length. -/
def emptyMem : Mem :=
  ⟨fun _ _ => none, 0, fun _ => ⟨none, Slice.nil⟩, 0, fun _ need => 2 * need⟩

/-- A memory with one image, at address 0, whose log holds two events. -/
def sampleMem : Mem :=
  LogCallEvent (LogCallEvent (newImage emptyMem (some 7)).1 0 "jpegload" none)
    0 "embed" none

/-- An environment for examples: the registry knows `a.jpg`, `out.png`, the
suffix `.png` and a two-byte buffer; the splitter knows one bracketed path;
the native constructor returns NULL; the dispatcher loads image 3, saves a
two-byte blob and fails on anything else. -/
def sampleVips : Vips where
  vips_foreign_find_load := fun f => if f = "a.jpg" then some "jpegload" else none
  vips_foreign_find_load_buffer := fun b _ =>
    if b = [255, 216] then some "jpegload_buffer" else none
  vips_foreign_find_save := fun f => if f = "out.png" then some "pngsave" else none
  vips_foreign_find_save_buffer := fun f =>
    if f = ".png" then some "pngsave_buffer" else none
  vips__filename_split8 := fun f =>
    if f = "out.png[compression=9]" then ("out.png", "[compression=9]")
    else if f = "a.jpg[shrink=2]" then ("a.jpg", "[shrink=2]")
    else (f, "")
  vips_image_new_from_memory_copy := fun _ _ _ _ _ _ => none
  vips_image_write_to_memory := fun h => h.map (fun _ => [1, 2, 3])
  vipsCall := fun name _ =>
    if name = "jpegload_buffer" then ⟨none, some 3, none⟩
    else ⟨some (Error.message "no such operation"), none, none⟩
  vipsCallString := fun name _ _ =>
    if name = "jpegload" then ⟨none, some 3, none⟩
    else if name = "pngsave_buffer" then ⟨none, none, some ⟨[137, 80]⟩⟩
    else if name = "pngsave" then ⟨none, none, none⟩
    else ⟨some (Error.message "no such operation"), none, none⟩
  imageTypeExtensionMap := [(1, ".jpeg"), (2, ".png")]
  AccessRandom := 0

/-- The environment `sampleVips` with a dispatcher that reports success and
stores nothing through the output slots. -/
def silentVips : Vips :=
  { sampleVips with vipsCallString := fun _ _ _ => ⟨none, none, none⟩ }

/-- Serializing an Input and deserializing an Output from the representation
so obtained. -/
def roundTrip (i o : OptionValue) (slots : Slots) : Except Error Slots :=
  match Serialize i with
  | Except.ok g => Deserialize o (some g) slots
  | Except.error e => Except.error e

/-- No slot filled yet. -/
def emptySlots : Slots := fun _ => none

/-- A rendering of an option used in examples: its name. -/
def renderName (o : OptionValue) : GoString := o.name

/-- The event `NewImageFromFile` dispatches for `a.jpg` with no caller options:
the option set holds the Input `filename` and the Output `out`. -/
def loadEvent : CallEvent :=
  ⟨"jpegload",
   some ⟨[StringInput "filename" "a.jpg", ImageOutput "out" localSlot]⟩⟩

/-- The option sets of the operation calls in a trace, in order. -/
def dispatchedOptions : List Effect → List Options
  | [] => []
  | Effect.vipsCall _ o :: rest => o :: dispatchedOptions rest
  | Effect.vipsCallString _ o _ :: rest => o :: dispatchedOptions rest
  | _ :: rest => dispatchedOptions rest

/-- The Input options of a set, in iteration order. -/
def inputsOf (o : Options) : List OptionValue :=
  o.Options.filter (fun e => e.direction = Direction.Input)

/-! ## Theorems: memory and the call-event log -/

theorem map_getD_range (xs : List EventPtr) :
    (List.range xs.length).map (fun k => xs.getD k none) = xs := by
  apply List.ext_getElem
  · simp
  · intro n h1 h2
    simp [List.getD_eq_getElem, h2]

theorem read_length (M : Mem) (s : Slice) : (M.read s).length = s.len := by
  simp [Mem.read]

/-- What `append` returns reads as the old elements followed by the new. -/
theorem read_append (M : Mem) (s : Slice) (xs : List EventPtr) :
    (M.append s xs).1.read (M.append s xs).2 = M.read s ++ xs := by
  unfold Mem.append
  split
  · simp only [Mem.read, List.range_add, List.map_append, List.map_map]
    congr 1
    · apply List.map_congr_left
      intro k hk
      have hk2 : k < s.len := List.mem_range.mp hk
      have : ¬ (s.off + s.len ≤ s.off + k) := by omega
      simp [this]
    · conv_rhs => rw [← map_getD_range xs]
      apply List.map_congr_left
      intro k hk
      have hk2 : k < xs.length := List.mem_range.mp hk
      have h1 : s.off + s.len ≤ s.off + (s.len + k) := by omega
      have h2 : s.off + (s.len + k) < s.off + s.len + xs.length := by omega
      have h3 : s.off + (s.len + k) - (s.off + s.len) = k := by omega
      simp [h1, h2, h3]
  · have hl : (M.read s ++ xs).length = s.len + xs.length := by
      simp [read_length]
    conv_rhs => rw [← map_getD_range (M.read s ++ xs)]
    rw [hl]
    simp [Mem.read]

/-- A slice of allocated memory that does not share the array written in
place reads the same after `append`. -/
theorem read_append_frame (M : Mem) (s t : Slice) (xs : List EventPtr)
    (ht : M.allocated t) (hne : s.len + xs.length ≤ s.cap → t.arr ≠ s.arr) :
    (M.append s xs).1.read t = M.read t := by
  unfold Mem.append
  split
  · rename_i hc
    have := hne hc
    simp [Mem.read, this]
  · rcases ht with h0 | hlt
    · simp [Mem.read, h0]
    · have : t.arr ≠ M.nextArr := by omega
      simp [Mem.read, this]

theorem append_images (M : Mem) (s : Slice) (xs : List EventPtr) :
    (M.append s xs).1.images = M.images := by
  unfold Mem.append
  split <;> rfl

theorem history_LogCallEvent (M : Mem) (i : Nat) (name : String)
    (options : Option Options) :
    history (LogCallEvent M i name options) i
      = history M i ++ [some ⟨name, options⟩] := by
  have h := read_append M (M.images i).callEvents [some ⟨name, options⟩]
  simpa [history, CallEventLog, LogCallEvent, Mem.setCallEvents, Mem.read]
    using h

theorem history_CopyEvents (M : Mem) (i : Nat) (events : Slice) :
    history (CopyEvents M i events) i = history M i ++ M.read events := by
  unfold CopyEvents
  split
  · have h := read_append M (M.images i).callEvents (M.read events)
    simpa [history, CallEventLog, Mem.setCallEvents, Mem.read] using h
  · rename_i h0
    have : events.len = 0 := by omega
    simp [history, CallEventLog, Mem.read, this]

theorem read_setCallEvents (M : Mem) (i : Nat) (s t : Slice) :
    (M.setCallEvents i s).read t = M.read t := rfl

theorem images_LogCallEvent_ne (M : Mem) (i j : Nat) (name : String)
    (options : Option Options) (hj : j ≠ i) :
    (LogCallEvent M i name options).images j = M.images j := by
  simp [LogCallEvent, Mem.setCallEvents, hj, append_images]

theorem images_CopyEvents_ne (M : Mem) (i j : Nat) (events : Slice)
    (hj : j ≠ i) : (CopyEvents M i events).images j = M.images j := by
  unfold CopyEvents
  split
  · simp [Mem.setCallEvents, hj, append_images]
  · rfl

theorem read_LogCallEvent_frame (M : Mem) (i : Nat) (name : String)
    (options : Option Options) (t : Slice) (ht : M.allocated t)
    (hne : (M.images i).callEvents.len + 1 ≤ (M.images i).callEvents.cap →
      t.arr ≠ (M.images i).callEvents.arr) :
    (LogCallEvent M i name options).read t = M.read t := by
  unfold LogCallEvent
  simp only [read_setCallEvents]
  exact read_append_frame M _ t _ ht (by simpa using hne)

theorem read_CopyEvents_frame (M : Mem) (i : Nat) (events t : Slice)
    (ht : M.allocated t)
    (hne : (M.images i).callEvents.len + events.len ≤ (M.images i).callEvents.cap →
      t.arr ≠ (M.images i).callEvents.arr) :
    (CopyEvents M i events).read t = M.read t := by
  unfold CopyEvents
  split
  · simp only [read_setCallEvents]
    exact read_append_frame M _ t _ ht (by simpa [read_length] using hne)
  · rfl

/-- C1. Event propagation: on a freshly wrapped derived image (empty history),
`CopyEvents` of the source's history followed by `LogCallEvent(X, opts)` leaves
the derived image with exactly the source's history followed by the event
`(X, opts)`, and the source's history is unchanged. -/
theorem C1_event_propagation (M : Mem) (src : Nat) (h : Option Nat)
    (X : String) (opts : Option Options)
    (hsrc : src < M.nextImg) (halloc : M.allocated (M.images src).callEvents) :
    history (newImage M h).1 (newImage M h).2 = [] ∧
    history (LogCallEvent (CopyEvents (newImage M h).1 (newImage M h).2
        (CallEventLog (newImage M h).1 src).2) (newImage M h).2 X opts)
        (newImage M h).2
      = history M src ++ [some ⟨X, opts⟩] ∧
    history (LogCallEvent (CopyEvents (newImage M h).1 (newImage M h).2
        (CallEventLog (newImage M h).1 src).2) (newImage M h).2 X opts) src
      = history M src := by
  have hne : src ≠ M.nextImg := by omega
  have himg : (newImage M h).1.images src = M.images src := by
    simp [newImage, hne]
  have hfresh : history (newImage M h).1 (newImage M h).2 = [] := by
    simp [history, CallEventLog, newImage, Slice.nil, Mem.read]
  have hev : (CallEventLog (newImage M h).1 src).2 = (M.images src).callEvents := by
    simp [CallEventLog, himg]
  have hrd : ∀ t, (newImage M h).1.read t = M.read t := fun _ => rfl
  refine ⟨hfresh, ?_, ?_⟩
  · rw [history_LogCallEvent, history_CopyEvents, hfresh, hev, hrd]
    simp [history, CallEventLog]
  · have hd : (newImage M h).2 = M.nextImg := rfl
    rw [hev, hd]
    unfold history CallEventLog
    simp only
    rw [images_LogCallEvent_ne _ _ _ _ _ hne, images_CopyEvents_ne _ _ _ _ hne,
      himg]
    rcases Nat.eq_zero_or_pos (M.images src).callEvents.len with h0 | hpos
    · simp [Mem.read, h0]
    · have hlt : (M.images src).callEvents.arr < M.nextArr := by
        rcases halloc with h0 | hlt
        · omega
        · exact hlt
      have hcopy : (CopyEvents (newImage M h).1 M.nextImg
          (M.images src).callEvents).read (M.images src).callEvents
            = M.read (M.images src).callEvents := by
        rw [read_CopyEvents_frame (newImage M h).1 M.nextImg _ _ (Or.inr hlt)]
        · rfl
        · intro hc
          simp [newImage, Slice.nil] at hc
          omega
      have harr : ((CopyEvents (newImage M h).1 M.nextImg
          (M.images src).callEvents).images M.nextImg).callEvents.arr
            = M.nextArr := by
        have : ¬ ((M.images src).callEvents.len = 0) := by omega
        simp [CopyEvents, hpos, Mem.append, newImage, Slice.nil,
          Mem.setCallEvents, read_length, this]
      have hnext : M.nextArr ≤ (CopyEvents (newImage M h).1 M.nextImg
          (M.images src).callEvents).nextArr := by
        have : ¬ ((M.images src).callEvents.len = 0) := by omega
        simp [CopyEvents, hpos, Mem.append, newImage, Slice.nil,
          Mem.setCallEvents, read_length, this]
      rw [read_LogCallEvent_frame _ _ _ _ _ (Or.inr (by omega)), hcopy]
      intro _
      rw [harr]
      omega

/-- Witness of C1: the image of `sampleMem` as source, `resize` as operation. -/
theorem C1_event_propagation_witness :
    (0 < sampleMem.nextImg ∧ sampleMem.allocated (sampleMem.images 0).callEvents) ∧
    history sampleMem 0 = [some ⟨"jpegload", none⟩, some ⟨"embed", none⟩] ∧
    (history (newImage sampleMem none).1 (newImage sampleMem none).2 = [] ∧
    history (LogCallEvent (CopyEvents (newImage sampleMem none).1
        (newImage sampleMem none).2
        (CallEventLog (newImage sampleMem none).1 0).2)
        (newImage sampleMem none).2 "resize" none) (newImage sampleMem none).2
      = history sampleMem 0 ++ [some ⟨"resize", none⟩] ∧
    history (LogCallEvent (CopyEvents (newImage sampleMem none).1
        (newImage sampleMem none).2
        (CallEventLog (newImage sampleMem none).1 0).2)
        (newImage sampleMem none).2 "resize" none) 0
      = history sampleMem 0) :=
  ⟨⟨by decide, by decide⟩, by decide,
    C1_event_propagation sampleMem 0 none "resize" none (by decide) (by decide)⟩

/-- C2. The call-event log is append-only: the log before `LogCallEvent` or
`CopyEvents` is an initial segment of the log after it; `LogCallEvent` adds
exactly one entry, `CopyEvents` exactly the entries of the batch in their
order (nothing for the empty batch), and `CallEventLog` changes nothing. -/
theorem C2_log_append_only (M : Mem) (i : Nat) :
    (∀ (name : String) (options : Option Options),
      history M i <+: history (LogCallEvent M i name options) i ∧
      (history (LogCallEvent M i name options) i).length
        = (history M i).length + 1 ∧
      history (LogCallEvent M i name options) i
        = history M i ++ [some ⟨name, options⟩]) ∧
    (∀ events : Slice,
      history M i <+: history (CopyEvents M i events) i ∧
      (history (CopyEvents M i events) i).length
        = (history M i).length + events.len ∧
      history (CopyEvents M i events) i = history M i ++ M.read events) ∧
    (∀ arr off cap : Nat,
      history (CopyEvents M i ⟨arr, off, 0, cap⟩) i = history M i) ∧
    ((CallEventLog M i).1 = M ∧
      (CallEventLog M i).1.read (CallEventLog M i).2 = history M i ∧
      history (CallEventLog M i).1 i = history M i) := by
  refine ⟨?_, ?_, ?_, rfl, rfl, rfl⟩
  · intro name options
    rw [history_LogCallEvent]
    exact ⟨⟨_, rfl⟩, by simp, rfl⟩
  · intro events
    rw [history_CopyEvents]
    exact ⟨⟨_, rfl⟩, by simp [read_length], rfl⟩
  · intro arr off cap
    rw [history_CopyEvents]
    simp [Mem.read]

/-! ## Theorems: rendering an event -/

theorem collectArgs_foldl (render : OptionValue → GoString)
    (opts : List OptionValue) (acc : List String) :
    opts.foldl (fun args o => args ++ [render o]) acc = acc ++ opts.map render := by
  induction opts generalizing acc with
  | nil => simp
  | cons o rest ih => simp [ih]

theorem collectArgs_eq_map (render : OptionValue → GoString)
    (opts : List OptionValue) : collectArgs render opts = opts.map render := by
  simp [collectArgs, collectArgs_foldl]

theorem stringsJoin_go (sep : String) (rest : List String) (acc : String) :
    rest.foldl (fun b s => b ++ sep ++ s) acc
      = String.intercalate.go acc sep rest := by
  induction rest generalizing acc with
  | nil => rfl
  | cons a as ih => simp [String.intercalate.go, ih]

theorem stringsJoin_eq_intercalate (elems : List String) (sep : String) :
    stringsJoin elems sep = sep.intercalate elems := by
  cases elems with
  | nil => rfl
  | cons e rest => simp [stringsJoin, String.intercalate, stringsJoin_go]

theorem intercalate_go_data (acc sep : String) (l : List String) :
    (String.intercalate.go acc sep l).data
      = acc.data ++ (l.map (fun s => sep.data ++ s.data)).flatten := by
  induction l generalizing acc with
  | nil => simp [String.intercalate.go]
  | cons a as ih => simp [String.intercalate.go, ih, String.data_append]

theorem flatten_intersperse (sep a : List Char) (l : List (List Char)) :
    (List.intersperse sep (a :: l)).flatten
      = a ++ (l.map (fun s => sep ++ s)).flatten := by
  induction l generalizing a with
  | nil => simp
  | cons b rest ih =>
    rw [List.intersperse_cons_cons, List.flatten_cons, List.flatten_cons, ih]
    simp

theorem intercalate_data (sep : String) (l : List String) :
    (sep.intercalate l).data = List.intercalate sep.data (l.map String.data) := by
  cases l with
  | nil => rfl
  | cons e rest =>
    simp only [String.intercalate, intercalate_go_data, List.intercalate,
      List.map_cons, flatten_intersperse, List.map_map]
    rfl

/-- C3. `CallEvent.String()` of an event with name `n` and an option set is `n`,
an opening bracket, the renderings of the entries in iteration order joined
with a comma and a blank, and a closing bracket; for the empty set it is `n()`;
the text depends on the name and the ordered renderings only. -/
theorem C3_callEvent_string (render : OptionValue → GoString) (n : String)
    (o : Options) :
    CallEvent.String render ⟨n, some o⟩
      = some (n ++ "(" ++ ", ".intercalate (o.Options.map render) ++ ")") ∧
    (CallEvent.String render ⟨n, some o⟩).map String.data
      = some (n.data ++ "(".data
          ++ List.intercalate ", ".data ((o.Options.map render).map String.data)
          ++ ")".data) ∧
    (o.Options = [] → CallEvent.String render ⟨n, some o⟩ = some (n ++ "()")) ∧
    (∀ (render2 : OptionValue → GoString) (o2 : Options),
      o2.Options.map render2 = o.Options.map render →
      CallEvent.String render2 ⟨n, some o2⟩
        = CallEvent.String render ⟨n, some o⟩) := by
  have h1 : CallEvent.String render ⟨n, some o⟩
      = some (n ++ "(" ++ ", ".intercalate (o.Options.map render) ++ ")") := by
    simp [CallEvent.String, collectArgs_eq_map, stringsJoin_eq_intercalate]
  refine ⟨h1, ?_, ?_, ?_⟩
  · rw [h1]
    simp [String.data_append, intercalate_data]
  · intro h0
    rw [h1, h0]
    simp only [List.map_nil, String.intercalate]
    rw [String.append_empty, String.append_assoc]
    rfl
  · intro render2 o2 h
    simp [CallEvent.String, collectArgs_eq_map, h]

/-- Witness of C3: the event of loading `a.jpg` and an event without options. -/
theorem C3_callEvent_string_witness :
    CallEvent.String renderName loadEvent = some "jpegload(filename, out)" ∧
    CallEvent.String renderName ⟨"shutdown", some ⟨[]⟩⟩ = some "shutdown()" ∧
    CallEvent.String (fun _ => "x") ⟨"op", some ⟨[IntInput "a" 1]⟩⟩
      = CallEvent.String renderName ⟨"op", some ⟨[IntInput "x" 2]⟩⟩ :=
  ⟨by decide,
   (C3_callEvent_string renderName "shutdown" ⟨[]⟩).2.2.1 rfl,
   (C3_callEvent_string renderName "op" ⟨[IntInput "x" 2]⟩).2.2.2
     (fun _ => "x") ⟨[IntInput "a" 1]⟩ rfl⟩

/-- C4 as stated fails: the event dispatched by `NewImageFromFile` holds the
Input `filename` and the Output `out`, and its rendering lists both, while
its Input options alone would give one argument. -/
theorem C4_output_option_rendered :
    CallEvent.String renderName loadEvent = some "jpegload(filename, out)" ∧
    CallEvent.args renderName loadEvent = some ["filename", "out"] ∧
    loadEvent.Options.map (fun o => (inputsOf o).map renderName)
      = some ["filename"] ∧
    CallEvent.args renderName loadEvent
      ≠ loadEvent.Options.map (fun o => (inputsOf o).map renderName) := by
  decide

/-- C4, amended. The rendered text lists every option of the option set, Input
or Output alike: each entry contributes exactly one argument, in iteration
order; so the text lists the input arguments only when the set holds no
Output option. -/
theorem C4_every_option_rendered (render : OptionValue → GoString) (n : String)
    (o : Options) :
    CallEvent.args render ⟨n, some o⟩ = some (o.Options.map render) ∧
    (CallEvent.args render ⟨n, some o⟩).map List.length
      = some o.Options.length ∧
    CallEvent.String render ⟨n, some o⟩
      = (CallEvent.args render ⟨n, some o⟩).map
          (fun args => n ++ "(" ++ stringsJoin args ", " ++ ")") ∧
    ((∀ e ∈ o.Options, e.direction = Direction.Input) →
      CallEvent.args render ⟨n, some o⟩ = some ((inputsOf o).map render)) := by
  have h1 : CallEvent.args render ⟨n, some o⟩ = some (o.Options.map render) := by
    simp [CallEvent.args, collectArgs_eq_map]
  refine ⟨h1, by simp [h1], by simp [CallEvent.String, CallEvent.args], ?_⟩
  intro hin
  rw [h1, inputsOf, List.filter_eq_self.mpr]
  intro e he
  simp [hin e he]

/-- Witness of amended C4: a set of Input options only. -/
theorem C4_every_option_rendered_witness :
    (∀ e ∈ [IntInput "width" 10, IntInput "height" 20],
      e.direction = Direction.Input) ∧
    CallEvent.args renderName
        ⟨"embed", some ⟨[IntInput "width" 10, IntInput "height" 20]⟩⟩
      = some ((inputsOf ⟨[IntInput "width" 10, IntInput "height" 20]⟩).map
          renderName) :=
  ⟨by decide,
   (C4_every_option_rendered renderName "embed"
      ⟨[IntInput "width" 10, IntInput "height" 20]⟩).2.2.2 (by decide)⟩

/-! ## Theorems: merging options -/

theorem any_name_iff (acc : List OptionValue) (n : String) :
    acc.any (fun e => e.name == n) = true ↔ n ∈ acc.map (fun e => e.name) := by
  simp only [List.any_eq_true, beq_iff_eq, List.mem_map]

theorem names_mergeOption (acc : List OptionValue) (o : OptionValue) :
    (mergeOption acc o).map (fun e => e.name)
      = if o.name ∈ acc.map (fun e => e.name) then acc.map (fun e => e.name)
        else acc.map (fun e => e.name) ++ [o.name] := by
  unfold mergeOption
  by_cases h : o.name ∈ acc.map (fun e => e.name)
  · rw [if_pos ((any_name_iff acc o.name).mpr h), if_pos h, List.map_map]
    apply List.map_congr_left
    intro e _
    by_cases he : e.name = o.name <;> simp [he]
  · have h2 : ¬ (acc.any (fun e => e.name == o.name) = true) :=
      fun hc => h ((any_name_iff acc o.name).mp hc)
    rw [if_neg h2, if_neg h]
    simp

theorem find_replace (acc : List OptionValue) (o : OptionValue) (n : String) :
    (acc.map (fun e => if e.name == o.name then o else e)).find?
        (fun e => e.name == n)
      = if n = o.name then (acc.find? (fun e => e.name == n)).map (fun _ => o)
        else acc.find? (fun e => e.name == n) := by
  induction acc with
  | nil => simp
  | cons a rest ih =>
    rw [List.map_cons, List.find?_cons, List.find?_cons, ih]
    by_cases ha : a.name = o.name
    · have e1 : (if (a.name == o.name) = true then o else a) = o := by simp [ha]
      rw [e1]
      by_cases hn : n = o.name
      · subst hn
        have h2 : (a.name == o.name) = true := by simp [ha]
        simp [h2]
      · have h1 : (o.name == n) = false := by
          simp only [beq_eq_false_iff_ne, ne_eq]
          exact fun h => hn h.symm
        have h2 : (a.name == n) = false := by
          simp only [beq_eq_false_iff_ne, ne_eq]
          exact fun h => hn (h.symm.trans ha)
        simp [h1, h2, hn]
    · have e1 : (if (a.name == o.name) = true then o else a) = a := by simp [ha]
      rw [e1]
      by_cases hn : n = o.name
      · subst hn
        have h2 : (a.name == o.name) = false := by
          simp only [beq_eq_false_iff_ne, ne_eq]
          exact ha
        simp [h2]
      · cases h2 : (a.name == n) <;> simp [hn]

theorem find_mergeOption (acc : List OptionValue) (o : OptionValue) (n : String) :
    (mergeOption acc o).find? (fun e => e.name == n)
      = if n = o.name then some o else acc.find? (fun e => e.name == n) := by
  unfold mergeOption
  by_cases h : o.name ∈ acc.map (fun e => e.name)
  · rw [if_pos ((any_name_iff acc o.name).mpr h), find_replace]
    by_cases hn : n = o.name
    · subst hn
      simp only [if_true]
      obtain ⟨e, he, hname⟩ := List.mem_map.mp h
      have : (acc.find? (fun e => e.name == o.name)).isSome := by
        rw [List.find?_isSome]
        exact ⟨e, he, by simpa using hname⟩
      obtain ⟨x, hx⟩ := Option.isSome_iff_exists.mp this
      simp [hx]
    · simp [hn]
  · have h2 : ¬ (acc.any (fun e => e.name == o.name) = true) :=
      fun hc => h ((any_name_iff acc o.name).mp hc)
    rw [if_neg h2, List.find?_append]
    by_cases hn : n = o.name
    · subst hn
      have : acc.find? (fun e => e.name == o.name) = none := by
        rw [List.find?_eq_none]
        intro x hx hc
        exact h (List.mem_map.mpr ⟨x, hx, by simpa using hc⟩)
      simp [this]
    · have : ¬ (o.name = n) := fun h => hn h.symm
      simp [hn, this]

theorem lastNamed_cons (o : OptionValue) (l : List OptionValue) (n : String) :
    lastNamed (o :: l) n
      = (lastNamed l n).or (if n = o.name then some o else none) := by
  unfold lastNamed
  rw [List.reverse_cons, List.find?_append]
  by_cases hn : n = o.name
  · subst hn
    cases List.find? (fun e => e.name == o.name) l.reverse <;> simp
  · have : (o.name == n) = false := by
      simp only [beq_eq_false_iff_ne, ne_eq]
      exact fun h => hn h.symm
    cases List.find? (fun e => e.name == n) l.reverse <;> simp [hn, this]

theorem lastNamed_append (l₁ l₂ : List OptionValue) (n : String) :
    lastNamed (l₁ ++ l₂) n = (lastNamed l₂ n).or (lastNamed l₁ n) := by
  unfold lastNamed
  rw [List.reverse_append, List.find?_append]

theorem find_foldl_mergeOption (l acc : List OptionValue) (n : String) :
    (l.foldl mergeOption acc).find? (fun e => e.name == n)
      = (lastNamed l n).or (acc.find? (fun e => e.name == n)) := by
  induction l generalizing acc with
  | nil => simp [lastNamed]
  | cons o rest ih =>
    rw [List.foldl_cons, ih, find_mergeOption, lastNamed_cons]
    by_cases hn : n = o.name
    · cases lastNamed rest n <;> simp [hn]
    · cases lastNamed rest n <;> simp [hn]

theorem lastNamed_isSome (l : List OptionValue) (n : String) :
    (lastNamed l n).isSome ↔ n ∈ l.map (fun e => e.name) := by
  unfold lastNamed
  rw [List.find?_isSome]
  simp only [List.mem_reverse, beq_iff_eq, List.mem_map]

theorem nodup_foldl_mergeOption (l acc : List OptionValue)
    (h : (acc.map (fun e => e.name)).Nodup) :
    ((l.foldl mergeOption acc).map (fun e => e.name)).Nodup := by
  induction l generalizing acc with
  | nil => simpa using h
  | cons o rest ih =>
    rw [List.foldl_cons]
    apply ih
    rw [names_mergeOption]
    split
    · exact h
    · rename_i hno
      rw [List.nodup_append]
      refine ⟨h, List.nodup_singleton _, ?_⟩
      intro a ha hb
      rw [List.mem_singleton] at hb
      exact hno (hb ▸ ha)

theorem mem_firstSeen (l : List String) (a : String) :
    a ∈ firstSeen l ↔ a ∈ l := by
  simp [firstSeen]

theorem firstSeen_append_singleton (l : List String) (a : String) :
    firstSeen (l ++ [a]) = if a ∈ l then firstSeen l else firstSeen l ++ [a] := by
  unfold firstSeen
  rw [List.reverse_append, List.reverse_singleton, List.singleton_append]
  split
  · rename_i h
    rw [List.dedup_cons_of_mem (List.mem_reverse.mpr h)]
  · rename_i h
    rw [List.dedup_cons_of_not_mem (fun hc => h (List.mem_reverse.mp hc)),
      List.reverse_cons]

theorem names_foldl_mergeOption (l : List OptionValue) :
    (l.foldl mergeOption []).map (fun e => e.name)
      = firstSeen (l.map (fun e => e.name)) := by
  induction l using List.reverseRecOn with
  | nil => rfl
  | append_singleton rest o ih =>
    rw [List.foldl_append, List.foldl_cons, List.foldl_nil, names_mergeOption,
      ih, List.map_append, List.map_singleton, firstSeen_append_singleton]
    simp only [mem_firstSeen]

theorem lastNamed_eq_find_of_nodup (l : List OptionValue) (n : String)
    (h : (l.map (fun e => e.name)).Nodup) :
    lastNamed l n = l.find? (fun e => e.name == n) := by
  induction l with
  | nil => rfl
  | cons a rest ih =>
    rw [List.map_cons, List.nodup_cons] at h
    rw [lastNamed_cons, List.find?_cons, ih h.2]
    by_cases hn : n = a.name
    · subst hn
      have hnone : rest.find? (fun e => e.name == a.name) = none := by
        cases hf : rest.find? (fun e => e.name == a.name) with
        | none => rfl
        | some x =>
          exfalso
          apply h.1
          rw [← lastNamed_isSome, ih h.2, hf]
          rfl
      simp [hnone]
    · have : (a.name == n) = false := by
        simp only [beq_eq_false_iff_ne, ne_eq]
        exact fun h => hn h.symm
      cases rest.find? (fun e => e.name == n) <;> simp [hn, this]

theorem lookup_With (S : Options) (M : List OptionValue) (n : String) :
    (S.With M).lookup n = (lastNamed M n).or (lastNamed S.Options n) := by
  unfold Options.lookup Options.With
  rw [find_foldl_mergeOption, lastNamed_append]
  simp

theorem lookup_With_of_last (S : Options) (M : List OptionValue) (n : String)
    (o : OptionValue) (h : lastNamed M n = some o) :
    (S.With M).lookup n = some o := by
  rw [lookup_With, h]
  rfl

theorem trace_NewImageFromFile (V : Vips) (path : String)
    (opts : List OptionValue) (op : String)
    (h : V.vips_foreign_find_load (vipsFilenameSplit8 V path).1 = some op) :
    (NewImageFromFile V path opts).2
      = [Effect.vips_foreign_find_load (vipsFilenameSplit8 V path).1,
         Effect.vipsCallString op
           ((NewOptions opts).With
             [StringInput "filename" (vipsFilenameSplit8 V path).1,
              ImageOutput "out" localSlot])
           (vipsFilenameSplit8 V path).2] := by
  simp only [NewImageFromFile, vipsForeignFindLoad, h]
  split <;> rfl

theorem trace_NewImageFromBuffer (V : Vips) (bytes : List Byte)
    (opts : List OptionValue) (op : String)
    (h : V.vips_foreign_find_load_buffer bytes bytes.length = some op) :
    (NewImageFromBuffer V bytes opts).2
      = [Effect.vips_foreign_find_load_buffer bytes,
         Effect.vipsCall op
           ((NewOptions opts).With
             [BlobInput "buffer" bytes, IntInput "access" V.AccessRandom,
              ImageOutput "out" localSlot])] := by
  simp only [NewImageFromBuffer, vipsForeignFindLoadBuffer, h]
  split <;> rfl

theorem trace_WriteToBuffer (V : Vips) (i : Nat) (imageType : ImageType)
    (opts : List OptionValue) (op : String)
    (h : V.vips_foreign_find_save_buffer (vipsFilenameSplit8 V
      ((V.imageTypeExtensionMap.lookup imageType).getD "")).1 = some op) :
    (WriteToBuffer V i imageType opts).2
      = [Effect.vips_foreign_find_save_buffer (vipsFilenameSplit8 V
           ((V.imageTypeExtensionMap.lookup imageType).getD "")).1,
         Effect.vipsCallString op
           ((NewOptions opts).With
             [ImageInput "in" i, BlobOutput "buffer" localSlot])
           (vipsFilenameSplit8 V
             ((V.imageTypeExtensionMap.lookup imageType).getD "")).2] := by
  simp only [WriteToBuffer, vipsForeignFindSaveBuffer, h]
  split
  · rfl
  · split <;> rfl

theorem trace_WriteToFile (V : Vips) (i : Nat) (path : String)
    (opts : List OptionValue) (op : String)
    (h : V.vips_foreign_find_save (vipsFilenameSplit8 V path).1 = some op) :
    (WriteToFile V i path opts).2
      = [Effect.vips_foreign_find_save (vipsFilenameSplit8 V path).1,
         Effect.vipsCallString op
           ((NewOptions opts).With
             [ImageInput "in" i,
              StringInput "filename" (vipsFilenameSplit8 V path).1])
           (vipsFilenameSplit8 V path).2] := by
  simp [WriteToFile, vipsForeignFindSave, h]

/-- C8. Merge semantics of `With`: the result holds no two entries of the same
name; a name of `M` is bound to its last occurrence in `M`, whatever `S` held;
a name of `S` that `M` does not mention keeps its value; the names stand in
the order in which they were first seen; `{A=1}.With(A=2, B=3)` is exactly
`[A=2, B=3]`; and the option set that `NewImageFromFile`,
`NewImageFromBuffer`, `WriteToBuffer` and `WriteToFile` dispatch binds
`filename`, `out`, `buffer`, `access` and `in` to the arguments the entry
point fixes through `With`, whatever options of those names the caller
supplied. -/
theorem C8_with_merge (S : Options) (M : List OptionValue) :
    ((S.With M).Options.map (fun e => e.name)).Nodup ∧
    (∀ n, n ∈ M.map (fun e => e.name) →
      (S.With M).lookup n = lastNamed M n ∧ ((S.With M).lookup n).isSome) ∧
    (∀ n, n ∉ M.map (fun e => e.name) →
      (S.With M).lookup n = lastNamed S.Options n ∧
      ((S.Options.map (fun e => e.name)).Nodup →
        (S.With M).lookup n = S.lookup n)) ∧
    (S.With M).Options.map (fun e => e.name)
      = firstSeen ((S.Options ++ M).map (fun e => e.name)) ∧
    (NewOptions [IntInput "A" 1]).With [IntInput "A" 2, IntInput "B" 3]
      = ⟨[IntInput "A" 2, IntInput "B" 3]⟩ ∧
    (∀ (fileName : String) (bytes : List Byte) (access : Int) (i : Nat),
      (S.With [StringInput "filename" fileName, ImageOutput "out" localSlot]).lookup
          "filename" = some (StringInput "filename" fileName) ∧
      (S.With [StringInput "filename" fileName, ImageOutput "out" localSlot]).lookup
          "out" = some (ImageOutput "out" localSlot) ∧
      (S.With [BlobInput "buffer" bytes, IntInput "access" access,
          ImageOutput "out" localSlot]).lookup "buffer"
        = some (BlobInput "buffer" bytes) ∧
      (S.With [BlobInput "buffer" bytes, IntInput "access" access,
          ImageOutput "out" localSlot]).lookup "access"
        = some (IntInput "access" access) ∧
      (S.With [BlobInput "buffer" bytes, IntInput "access" access,
          ImageOutput "out" localSlot]).lookup "out"
        = some (ImageOutput "out" localSlot) ∧
      (S.With [ImageInput "in" i, BlobOutput "buffer" localSlot]).lookup "in"
        = some (ImageInput "in" i) ∧
      (S.With [ImageInput "in" i, BlobOutput "buffer" localSlot]).lookup "buffer"
        = some (BlobOutput "buffer" localSlot) ∧
      (S.With [ImageInput "in" i, StringInput "filename" fileName]).lookup "in"
        = some (ImageInput "in" i) ∧
      (S.With [ImageInput "in" i, StringInput "filename" fileName]).lookup
          "filename" = some (StringInput "filename" fileName)) ∧
    (∀ (V : Vips) (path : String) (bytes : List Byte) (i : Nat)
        (imageType : ImageType) (opts : List OptionValue) (op : String),
      (V.vips_foreign_find_load (vipsFilenameSplit8 V path).1 = some op →
        (dispatchedOptions (NewImageFromFile V path opts).2).map
            (fun o => (o.lookup "filename", o.lookup "out"))
          = [(some (StringInput "filename" (vipsFilenameSplit8 V path).1),
              some (ImageOutput "out" localSlot))]) ∧
      (V.vips_foreign_find_load_buffer bytes bytes.length = some op →
        (dispatchedOptions (NewImageFromBuffer V bytes opts).2).map
            (fun o => (o.lookup "buffer", o.lookup "access", o.lookup "out"))
          = [(some (BlobInput "buffer" bytes),
              some (IntInput "access" V.AccessRandom),
              some (ImageOutput "out" localSlot))]) ∧
      (V.vips_foreign_find_save_buffer (vipsFilenameSplit8 V
          ((V.imageTypeExtensionMap.lookup imageType).getD "")).1 = some op →
        (dispatchedOptions (WriteToBuffer V i imageType opts).2).map
            (fun o => (o.lookup "in", o.lookup "buffer"))
          = [(some (ImageInput "in" i),
              some (BlobOutput "buffer" localSlot))]) ∧
      (V.vips_foreign_find_save (vipsFilenameSplit8 V path).1 = some op →
        (dispatchedOptions (WriteToFile V i path opts).2).map
            (fun o => (o.lookup "in", o.lookup "filename"))
          = [(some (ImageInput "in" i),
              some (StringInput "filename" (vipsFilenameSplit8 V path).1))])) := by
  have hl : ∀ (T : Options) (L : List OptionValue) (n : String)
      (o : OptionValue), lastNamed L n = some o → (T.With L).lookup n = some o :=
    fun T L n o h => lookup_With_of_last T L n o h
  refine ⟨?_, ?_, ?_, ?_, by decide, ?_, ?_⟩
  · exact nodup_foldl_mergeOption _ [] List.nodup_nil
  · intro n hn
    have hs : (lastNamed M n).isSome := (lastNamed_isSome M n).mpr hn
    obtain ⟨o, ho⟩ := Option.isSome_iff_exists.mp hs
    rw [lookup_With_of_last S M n o ho, ho]
    exact ⟨rfl, rfl⟩
  · intro n hn
    have hnone : lastNamed M n = none := by
      cases h : lastNamed M n with
      | none => rfl
      | some x =>
        exfalso
        apply hn
        rw [← lastNamed_isSome, h]
        rfl
    have h1 : (S.With M).lookup n = lastNamed S.Options n := by
      rw [lookup_With, hnone]
      rfl
    refine ⟨h1, ?_⟩
    intro hnd
    rw [h1, lastNamed_eq_find_of_nodup _ _ hnd]
    rfl
  · exact names_foldl_mergeOption _
  · intro fileName bytes access i
    refine ⟨?_, ?_, ?_, ?_, ?_, ?_, ?_, ?_, ?_⟩ <;>
      exact lookup_With_of_last _ _ _ _
        (by simp [lastNamed, StringInput, ImageOutput, BlobInput, IntInput,
          ImageInput, BlobOutput])
  · intro V path bytes i imageType opts op
    refine ⟨?_, ?_, ?_, ?_⟩
    · intro h
      have e1 : ((NewOptions opts).With
          [StringInput "filename" (vipsFilenameSplit8 V path).1,
           ImageOutput "out" localSlot]).lookup "filename"
          = some (StringInput "filename" (vipsFilenameSplit8 V path).1) :=
        hl _ _ _ _ (by simp [lastNamed, StringInput, ImageOutput])
      have e2 : ((NewOptions opts).With
          [StringInput "filename" (vipsFilenameSplit8 V path).1,
           ImageOutput "out" localSlot]).lookup "out"
          = some (ImageOutput "out" localSlot) :=
        hl _ _ _ _ (by simp [lastNamed, StringInput, ImageOutput])
      rw [trace_NewImageFromFile V path opts op h]
      simp only [dispatchedOptions, List.map_cons, List.map_nil, e1, e2]
    · intro h
      have e1 : ((NewOptions opts).With
          [BlobInput "buffer" bytes, IntInput "access" V.AccessRandom,
           ImageOutput "out" localSlot]).lookup "buffer"
          = some (BlobInput "buffer" bytes) :=
        hl _ _ _ _ (by simp [lastNamed, BlobInput, IntInput, ImageOutput])
      have e2 : ((NewOptions opts).With
          [BlobInput "buffer" bytes, IntInput "access" V.AccessRandom,
           ImageOutput "out" localSlot]).lookup "access"
          = some (IntInput "access" V.AccessRandom) :=
        hl _ _ _ _ (by simp [lastNamed, BlobInput, IntInput, ImageOutput])
      have e3 : ((NewOptions opts).With
          [BlobInput "buffer" bytes, IntInput "access" V.AccessRandom,
           ImageOutput "out" localSlot]).lookup "out"
          = some (ImageOutput "out" localSlot) :=
        hl _ _ _ _ (by simp [lastNamed, BlobInput, IntInput, ImageOutput])
      rw [trace_NewImageFromBuffer V bytes opts op h]
      simp only [dispatchedOptions, List.map_cons, List.map_nil, e1, e2, e3]
    · intro h
      have e1 : ((NewOptions opts).With
          [ImageInput "in" i, BlobOutput "buffer" localSlot]).lookup "in"
          = some (ImageInput "in" i) :=
        hl _ _ _ _ (by simp [lastNamed, ImageInput, BlobOutput])
      have e2 : ((NewOptions opts).With
          [ImageInput "in" i, BlobOutput "buffer" localSlot]).lookup "buffer"
          = some (BlobOutput "buffer" localSlot) :=
        hl _ _ _ _ (by simp [lastNamed, ImageInput, BlobOutput])
      rw [trace_WriteToBuffer V i imageType opts op h]
      simp only [dispatchedOptions, List.map_cons, List.map_nil, e1, e2]
    · intro h
      have e1 : ((NewOptions opts).With
          [ImageInput "in" i,
           StringInput "filename" (vipsFilenameSplit8 V path).1]).lookup "in"
          = some (ImageInput "in" i) :=
        hl _ _ _ _ (by simp [lastNamed, ImageInput, StringInput])
      have e2 : ((NewOptions opts).With
          [ImageInput "in" i,
           StringInput "filename" (vipsFilenameSplit8 V path).1]).lookup
            "filename"
          = some (StringInput "filename" (vipsFilenameSplit8 V path).1) :=
        hl _ _ _ _ (by simp [lastNamed, ImageInput, StringInput])
      rw [trace_WriteToFile V i path opts op h]
      simp only [dispatchedOptions, List.map_cons, List.map_nil, e1, e2]

/-- Witness of C8: `{A=1}.With(A=2, B=3)`, `{C=7, A=1}.With(A=2, B=3)`, and
`NewImageFromFile` and `WriteToBuffer` called with options named like the
arguments they fix. -/
theorem C8_with_merge_witness :
    ("A" ∈ [IntInput "A" 2, IntInput "B" 3].map (fun e => e.name) ∧
      ((NewOptions [IntInput "A" 1]).With [IntInput "A" 2, IntInput "B" 3]).lookup "A"
        = lastNamed [IntInput "A" 2, IntInput "B" 3] "A" ∧
      (((NewOptions [IntInput "A" 1]).With
        [IntInput "A" 2, IntInput "B" 3]).lookup "A").isSome) ∧
    ("C" ∉ [IntInput "A" 2, IntInput "B" 3].map (fun e => e.name) ∧
      ((NewOptions [IntInput "C" 7, IntInput "A" 1]).Options.map
        (fun e => e.name)).Nodup ∧
      ((NewOptions [IntInput "C" 7, IntInput "A" 1]).With
          [IntInput "A" 2, IntInput "B" 3]).lookup "C"
        = (NewOptions [IntInput "C" 7, IntInput "A" 1]).lookup "C") ∧
    (sampleVips.vips_foreign_find_load
        (vipsFilenameSplit8 sampleVips "a.jpg[shrink=2]").1 = some "jpegload" ∧
      (dispatchedOptions (NewImageFromFile sampleVips "a.jpg[shrink=2]"
          [StringInput "filename" "other.png", IntInput "access" 1,
           ImageOutput "out" 99]).2).map
          (fun o => (o.lookup "filename", o.lookup "out"))
        = [(some (StringInput "filename"
              (vipsFilenameSplit8 sampleVips "a.jpg[shrink=2]").1),
            some (ImageOutput "out" localSlot))]) ∧
    (sampleVips.vips_foreign_find_save_buffer (vipsFilenameSplit8 sampleVips
        ((sampleVips.imageTypeExtensionMap.lookup 2).getD "")).1
          = some "pngsave_buffer" ∧
      (dispatchedOptions (WriteToBuffer sampleVips 0 2
          [BlobOutput "buffer" 99, ImageInput "in" 5]).2).map
          (fun o => (o.lookup "in", o.lookup "buffer"))
        = [(some (ImageInput "in" 0), some (BlobOutput "buffer" localSlot))]) :=
  ⟨⟨by decide,
    (C8_with_merge (NewOptions [IntInput "A" 1])
      [IntInput "A" 2, IntInput "B" 3]).2.1 "A" (by decide)⟩,
   ⟨by decide, by decide,
    ((C8_with_merge (NewOptions [IntInput "C" 7, IntInput "A" 1])
      [IntInput "A" 2, IntInput "B" 3]).2.2.1 "C" (by decide)).2 (by decide)⟩,
   ⟨by decide,
    ((C8_with_merge (NewOptions []) []).2.2.2.2.2.2 sampleVips
      "a.jpg[shrink=2]" [] 0 0
      [StringInput "filename" "other.png", IntInput "access" 1,
       ImageOutput "out" 99] "jpegload").1 (by decide)⟩,
   ⟨by decide,
    ((C8_with_merge (NewOptions []) []).2.2.2.2.2.2 sampleVips
      "" [] 0 2 [BlobOutput "buffer" 99, ImageInput "in" 5]
      "pngsave_buffer").2.2.1 (by decide)⟩⟩

/-! ## Theorems: resolvers and entry points -/

/-- C5. Unsupported formats fail without guessing: each resolver returns the
empty name with `ErrUnsupportedImageFormat` when the registry reports no
operation and returns an error in that case only; then `NewImageFromFile`,
`NewImageFromBuffer`, `WriteToFile` and `WriteToBuffer` (also for a tag missing
from the table, whose suffix is empty) return that error with a nil image or
nil bytes after the one registry lookup, dispatching no operation call. -/
theorem C5_unsupported_format (V : Vips) :
    (∀ filename,
      (V.vips_foreign_find_load filename = none →
        (vipsForeignFindLoad V filename).1
          = ("", some Error.ErrUnsupportedImageFormat)) ∧
      ((vipsForeignFindLoad V filename).1.2 ≠ none →
        V.vips_foreign_find_load filename = none)) ∧
    (∀ bytes,
      (V.vips_foreign_find_load_buffer bytes bytes.length = none →
        (vipsForeignFindLoadBuffer V bytes).1
          = ("", some Error.ErrUnsupportedImageFormat)) ∧
      ((vipsForeignFindLoadBuffer V bytes).1.2 ≠ none →
        V.vips_foreign_find_load_buffer bytes bytes.length = none)) ∧
    (∀ filename,
      (V.vips_foreign_find_save filename = none →
        (vipsForeignFindSave V filename).1
          = ("", some Error.ErrUnsupportedImageFormat)) ∧
      ((vipsForeignFindSave V filename).1.2 ≠ none →
        V.vips_foreign_find_save filename = none)) ∧
    (∀ filename,
      (V.vips_foreign_find_save_buffer filename = none →
        (vipsForeignFindSaveBuffer V filename).1
          = ("", some Error.ErrUnsupportedImageFormat)) ∧
      ((vipsForeignFindSaveBuffer V filename).1.2 ≠ none →
        V.vips_foreign_find_save_buffer filename = none)) ∧
    (∀ path opts,
      V.vips_foreign_find_load (vipsFilenameSplit8 V path).1 = none →
      NewImageFromFile V path opts
        = ((none, some Error.ErrUnsupportedImageFormat),
           [Effect.vips_foreign_find_load (vipsFilenameSplit8 V path).1]) ∧
      (NewImageFromFile V path opts).2.any Effect.isCall = false) ∧
    (∀ bytes opts,
      V.vips_foreign_find_load_buffer bytes bytes.length = none →
      NewImageFromBuffer V bytes opts
        = ((none, some Error.ErrUnsupportedImageFormat),
           [Effect.vips_foreign_find_load_buffer bytes]) ∧
      (NewImageFromBuffer V bytes opts).2.any Effect.isCall = false) ∧
    (∀ i path opts,
      V.vips_foreign_find_save (vipsFilenameSplit8 V path).1 = none →
      WriteToFile V i path opts
        = (some Error.ErrUnsupportedImageFormat,
           [Effect.vips_foreign_find_save (vipsFilenameSplit8 V path).1]) ∧
      (WriteToFile V i path opts).2.any Effect.isCall = false) ∧
    (∀ i imageType opts,
      V.vips_foreign_find_save_buffer (vipsFilenameSplit8 V
        ((V.imageTypeExtensionMap.lookup imageType).getD "")).1 = none →
      WriteToBuffer V i imageType opts
        = ((none, some Error.ErrUnsupportedImageFormat),
           [Effect.vips_foreign_find_save_buffer (vipsFilenameSplit8 V
              ((V.imageTypeExtensionMap.lookup imageType).getD "")).1]) ∧
      (WriteToBuffer V i imageType opts).2.any Effect.isCall = false) ∧
    (∀ i imageType opts,
      V.imageTypeExtensionMap.lookup imageType = none →
      V.vips_foreign_find_save_buffer (vipsFilenameSplit8 V "").1 = none →
      WriteToBuffer V i imageType opts
        = ((none, some Error.ErrUnsupportedImageFormat),
           [Effect.vips_foreign_find_save_buffer (vipsFilenameSplit8 V "").1])) := by
  refine ⟨?_, ?_, ?_, ?_, ?_, ?_, ?_, ?_, ?_⟩
  · intro filename
    constructor
    · intro h
      simp [vipsForeignFindLoad, h]
    · intro h
      cases hf : V.vips_foreign_find_load filename with
      | none => rfl
      | some n => simp [vipsForeignFindLoad, hf] at h
  · intro bytes
    constructor
    · intro h
      simp [vipsForeignFindLoadBuffer, h]
    · intro h
      cases hf : V.vips_foreign_find_load_buffer bytes bytes.length with
      | none => rfl
      | some n => simp [vipsForeignFindLoadBuffer, hf] at h
  · intro filename
    constructor
    · intro h
      simp [vipsForeignFindSave, h]
    · intro h
      cases hf : V.vips_foreign_find_save filename with
      | none => rfl
      | some n => simp [vipsForeignFindSave, hf] at h
  · intro filename
    constructor
    · intro h
      simp [vipsForeignFindSaveBuffer, h]
    · intro h
      cases hf : V.vips_foreign_find_save_buffer filename with
      | none => rfl
      | some n => simp [vipsForeignFindSaveBuffer, hf] at h
  · intro path opts h
    simp [NewImageFromFile, vipsForeignFindLoad, h, Effect.isCall]
  · intro bytes opts h
    simp [NewImageFromBuffer, vipsForeignFindLoadBuffer, h, Effect.isCall]
  · intro i path opts h
    simp [WriteToFile, vipsForeignFindSave, h, Effect.isCall]
  · intro i imageType opts h
    simp [WriteToBuffer, vipsForeignFindSaveBuffer, h, Effect.isCall]
  · intro i imageType opts hmap h
    simp [WriteToBuffer, vipsForeignFindSaveBuffer, hmap, h]

/-- Witness of C5: in `sampleVips` the registry knows neither `notes.txt` nor
the empty suffix of the unmapped tag 9. -/
theorem C5_unsupported_format_witness :
    (sampleVips.vips_foreign_find_load "notes.txt" = none ∧
      (vipsForeignFindLoad sampleVips "notes.txt").1
        = ("", some Error.ErrUnsupportedImageFormat)) ∧
    (sampleVips.vips_foreign_find_load
        (vipsFilenameSplit8 sampleVips "notes.txt").1 = none ∧
      NewImageFromFile sampleVips "notes.txt" []
        = ((none, some Error.ErrUnsupportedImageFormat),
           [Effect.vips_foreign_find_load "notes.txt"])) ∧
    (sampleVips.imageTypeExtensionMap.lookup 9 = none ∧
      sampleVips.vips_foreign_find_save_buffer
        (vipsFilenameSplit8 sampleVips "").1 = none ∧
      WriteToBuffer sampleVips 0 9 []
        = ((none, some Error.ErrUnsupportedImageFormat),
           [Effect.vips_foreign_find_save_buffer ""])) :=
  ⟨⟨by decide, ((C5_unsupported_format sampleVips).1 "notes.txt").1 (by decide)⟩,
   ⟨by decide,
    ((C5_unsupported_format sampleVips).2.2.2.2.1 "notes.txt" [] (by decide)).1⟩,
   ⟨by decide, by decide,
    (C5_unsupported_format sampleVips).2.2.2.2.2.2.2.2 0 9 [] (by decide)
      (by decide)⟩⟩

/-- C7. Filename option syntax is split before resolution and dispatch: when
the registry names an operation for the bare part of the path,
`NewImageFromFile` and `WriteToFile` look the operation up with the bare part,
dispatch exactly one call to it, whose option set binds `filename` to the
bare part and whose raw option string is the split-off part, and return the
dispatcher's error unchanged, `NewImageFromFile` with a nil image whenever
that error is non-nil and with the dispatcher's image otherwise. -/
theorem C7_filename_split (V : Vips) (path : String) (opts : List OptionValue)
    (i : Nat) (op : String) :
    (V.vips_foreign_find_load (vipsFilenameSplit8 V path).1 = some op →
      (NewImageFromFile V path opts).2
        = [Effect.vips_foreign_find_load (vipsFilenameSplit8 V path).1,
           Effect.vipsCallString op
             ((NewOptions opts).With
               [StringInput "filename" (vipsFilenameSplit8 V path).1,
                ImageOutput "out" localSlot])
             (vipsFilenameSplit8 V path).2] ∧
      ((NewOptions opts).With
          [StringInput "filename" (vipsFilenameSplit8 V path).1,
           ImageOutput "out" localSlot]).lookup "filename"
        = some (StringInput "filename" (vipsFilenameSplit8 V path).1) ∧
      (NewImageFromFile V path opts).1.2
        = (V.vipsCallString op
            ((NewOptions opts).With
              [StringInput "filename" (vipsFilenameSplit8 V path).1,
               ImageOutput "out" localSlot])
            (vipsFilenameSplit8 V path).2).err ∧
      ((NewImageFromFile V path opts).1.2 ≠ none →
        (NewImageFromFile V path opts).1.1 = none) ∧
      ((NewImageFromFile V path opts).1.2 = none →
        (NewImageFromFile V path opts).1.1
          = (V.vipsCallString op
              ((NewOptions opts).With
                [StringInput "filename" (vipsFilenameSplit8 V path).1,
                 ImageOutput "out" localSlot])
              (vipsFilenameSplit8 V path).2).outImage)) ∧
    (V.vips_foreign_find_save (vipsFilenameSplit8 V path).1 = some op →
      (WriteToFile V i path opts).2
        = [Effect.vips_foreign_find_save (vipsFilenameSplit8 V path).1,
           Effect.vipsCallString op
             ((NewOptions opts).With
               [ImageInput "in" i,
                StringInput "filename" (vipsFilenameSplit8 V path).1])
             (vipsFilenameSplit8 V path).2] ∧
      ((NewOptions opts).With
          [ImageInput "in" i,
           StringInput "filename" (vipsFilenameSplit8 V path).1]).lookup "filename"
        = some (StringInput "filename" (vipsFilenameSplit8 V path).1) ∧
      (WriteToFile V i path opts).1
        = (V.vipsCallString op
            ((NewOptions opts).With
              [ImageInput "in" i,
               StringInput "filename" (vipsFilenameSplit8 V path).1])
            (vipsFilenameSplit8 V path).2).err) := by
  constructor
  · intro h
    have hl : ∀ S : Options, (S.With
        [StringInput "filename" (vipsFilenameSplit8 V path).1,
         ImageOutput "out" localSlot]).lookup "filename"
        = some (StringInput "filename" (vipsFilenameSplit8 V path).1) :=
      fun S => lookup_With_of_last S _ _ _
        (by simp [lastNamed, StringInput, ImageOutput])
    refine ⟨?_, hl _, ?_, ?_, ?_⟩
    · simp only [NewImageFromFile, vipsForeignFindLoad, h]
      cases (V.vipsCallString op ((NewOptions opts).With
        [StringInput "filename" (vipsFilenameSplit8 V path).1,
         ImageOutput "out" localSlot]) (vipsFilenameSplit8 V path).2).err <;> rfl
    · simp only [NewImageFromFile, vipsForeignFindLoad, h]
      cases (V.vipsCallString op ((NewOptions opts).With
        [StringInput "filename" (vipsFilenameSplit8 V path).1,
         ImageOutput "out" localSlot]) (vipsFilenameSplit8 V path).2).err <;> rfl
    · simp only [NewImageFromFile, vipsForeignFindLoad, h]
      cases (V.vipsCallString op ((NewOptions opts).With
        [StringInput "filename" (vipsFilenameSplit8 V path).1,
         ImageOutput "out" localSlot]) (vipsFilenameSplit8 V path).2).err <;> simp
    · simp only [NewImageFromFile, vipsForeignFindLoad, h]
      cases (V.vipsCallString op ((NewOptions opts).With
        [StringInput "filename" (vipsFilenameSplit8 V path).1,
         ImageOutput "out" localSlot]) (vipsFilenameSplit8 V path).2).err <;> simp
  · intro h
    refine ⟨?_, ?_, ?_⟩
    · simp [WriteToFile, vipsForeignFindSave, h]
    · exact lookup_With_of_last _ _ _ _
        (by simp [lastNamed, StringInput, ImageInput])
    · simp [WriteToFile, vipsForeignFindSave, h]

/-- Witness of C7: `a.jpg[shrink=2]` and `out.png[compression=9]` in
`sampleVips`. -/
theorem C7_filename_split_witness :
    (sampleVips.vips_foreign_find_load
        (vipsFilenameSplit8 sampleVips "a.jpg[shrink=2]").1 = some "jpegload" ∧
      (NewImageFromFile sampleVips "a.jpg[shrink=2]" []).2
        = [Effect.vips_foreign_find_load "a.jpg",
           Effect.vipsCallString "jpegload"
             ⟨[StringInput "filename" "a.jpg", ImageOutput "out" localSlot]⟩
             "[shrink=2]"] ∧
      NewImageFromFile sampleVips "a.jpg[shrink=2]" [] = ((some 3, none),
          (NewImageFromFile sampleVips "a.jpg[shrink=2]" []).2)) ∧
    (sampleVips.vips_foreign_find_save
        (vipsFilenameSplit8 sampleVips "out.png[compression=9]").1
          = some "pngsave" ∧
      (WriteToFile sampleVips 3 "out.png[compression=9]" []).2
        = [Effect.vips_foreign_find_save "out.png",
           Effect.vipsCallString "pngsave"
             ⟨[ImageInput "in" 3, StringInput "filename" "out.png"]⟩
             "[compression=9]"]) :=
  ⟨⟨by decide,
    ((C7_filename_split sampleVips "a.jpg[shrink=2]" [] 0 "jpegload").1
      (by decide)).1,
    by decide⟩,
   ⟨by decide,
    ((C7_filename_split sampleVips "out.png[compression=9]" [] 3 "pngsave").2
      (by decide)).1⟩⟩

/-- C6 at its failing input. With a save-to-buffer call that reports success and
leaves the output blob unset (`silentVips`), `WriteToBuffer` returns nil bytes
together with a nil error after dispatching the call; `ToBytes`, on native
data missing, does return an error, and bytes with a nil error otherwise. -/
theorem C6_writeToBuffer_nil_nil :
    silentVips.vips_foreign_find_save_buffer ".png" = some "pngsave_buffer" ∧
    silentVips.vipsCallString "pngsave_buffer"
        ⟨[ImageInput "in" 0, BlobOutput "buffer" localSlot]⟩ ""
      = ⟨none, none, none⟩ ∧
    WriteToBuffer silentVips 0 2 []
      = ((none, none),
         [Effect.vips_foreign_find_save_buffer ".png",
          Effect.vipsCallString "pngsave_buffer"
            ⟨[ImageInput "in" 0, BlobOutput "buffer" localSlot]⟩ ""]) ∧
    WriteToBuffer sampleVips 0 2 []
      = ((some [137, 80], none),
         [Effect.vips_foreign_find_save_buffer ".png",
          Effect.vipsCallString "pngsave_buffer"
            ⟨[ImageInput "in" 0, BlobOutput "buffer" localSlot]⟩ ""]) ∧
    ToBytes sampleVips (newImage emptyMem none).1 0
      = some (none, some (Error.message "Failed to write image to memory")) ∧
    ToBytes sampleVips sampleMem 0 = some (some [1, 2, 3], none) := by
  decide

theorem ToBytes_error_iff (V : Vips) (M : Mem) (i : Nat) :
    (V.vips_image_write_to_memory (M.images i).image = none →
      ToBytes V M i
        = some (none, some (Error.message "Failed to write image to memory"))) ∧
    (∀ r, ToBytes V M i = some r →
      (r.2 ≠ none ↔ V.vips_image_write_to_memory (M.images i).image = none)) := by
  constructor
  · intro hf
    unfold ToBytes
    rw [hf]
  · intro r hr
    unfold ToBytes at hr
    cases hf : V.vips_image_write_to_memory (M.images i).image with
    | none =>
      rw [hf] at hr
      injection hr with hr
      subst hr
      exact ⟨fun _ => rfl, fun _ => Option.some_ne_none _⟩
    | some cData =>
      rw [hf] at hr
      obtain ⟨bytes, _, hb⟩ := Option.map_eq_some'.mp hr
      subst hb
      exact ⟨fun hc => absurd rfl hc, fun hc => Option.noConfusion hc⟩

/-- C10. `NewImageFromMemory` never reports failure: whatever the native
constructor returns, the NULL handle included, the result is a fresh non-nil
`Image` wrapper holding that handle, with an empty call-event log, together
with a nil error; images allocated before are untouched. -/
theorem C10_newImageFromMemory_total (V : Vips) (M : Mem) (bytes : List Byte)
    (width height bands format : Int) :
    (NewImageFromMemory V M bytes width height bands format).2
      = (some M.nextImg, none) ∧
    history (NewImageFromMemory V M bytes width height bands format).1
      M.nextImg = [] ∧
    ((NewImageFromMemory V M bytes width height bands format).1.images
        M.nextImg).image
      = V.vips_image_new_from_memory_copy bytes bytes.length (cInt width)
          (cInt height) (cInt bands) (cInt format) ∧
    (∀ p, p < M.nextImg →
      (NewImageFromMemory V M bytes width height bands format).1.images p
        = M.images p) := by
  refine ⟨rfl, ?_, ?_, ?_⟩
  · simp [NewImageFromMemory, history, CallEventLog, newImage, Slice.nil,
      Mem.read]
  · simp [NewImageFromMemory, newImage]
  · intro p hp
    have : p ≠ M.nextImg := by omega
    simp [NewImageFromMemory, newImage, this]

/-- Witness of C10: the native constructor of `sampleVips` returns NULL. -/
theorem C10_newImageFromMemory_total_witness :
    (NewImageFromMemory sampleVips sampleMem [1, 2, 3] 1 1 3 0).2
      = (some 1, none) ∧
    ((NewImageFromMemory sampleVips sampleMem [1, 2, 3] 1 1 3 0).1.images 1).image
      = none ∧
    (0 < sampleMem.nextImg ∧
      (NewImageFromMemory sampleVips sampleMem [1, 2, 3] 1 1 3 0).1.images 0
        = sampleMem.images 0) :=
  ⟨by decide, by decide, by decide,
   (C10_newImageFromMemory_total sampleVips sampleMem [1, 2, 3] 1 1 3 0).2.2.2 0
     (by decide)⟩

/-! ## Theorems: serializing options -/

/-- C9 as stated fails on the modelled `Deserialize`: called on an Output of
a primitive kind before any representation exists, as the test does right
after construction, it fails fast with `InvalidOptionUse`. -/
theorem C9_deserialize_without_representation :
    Deserialize (BoolOutput "b" 0) none emptySlots
      = Except.error Error.InvalidOptionUse ∧
    Deserialize (IntOutput "i" 1) none emptySlots
      = Except.error Error.InvalidOptionUse ∧
    Deserialize (DoubleOutput "d" 2) none emptySlots
      = Except.error Error.InvalidOptionUse ∧
    Deserialize (StringOutput "s" 3) none emptySlots
      = Except.error Error.InvalidOptionUse :=
  ⟨rfl, rfl, rfl, rfl⟩

/-- C9, amended. Primitive option round trip: for every bool, int, double and
string value, `Serialize` on the Input option holding it succeeds, and
`Deserialize` on an Output option of the same kind, from the representation
so obtained, succeeds and writes the value into the caller's slot, leaving
the other slots as they were (so for `true`, `42`, `42.2` and `hi`);
`Deserialize` on an Output of these kinds succeeds on every representation of
its kind, and with no representation it fails with `InvalidOptionUse`. -/
theorem C9_round_trip_given_representation (name outName : String) (addr : Nat)
    (slots : Slots) :
    (∀ b : Bool,
      Serialize (BoolInput name b) = Except.ok ⟨Kind.Bool, Payload.bool b⟩ ∧
      roundTrip (BoolInput name b) (BoolOutput outName addr) slots
        = Except.ok (fun a => if a = addr then some (Payload.bool b) else slots a)) ∧
    (∀ i : Int,
      Serialize (IntInput name i) = Except.ok ⟨Kind.Int, Payload.int i⟩ ∧
      roundTrip (IntInput name i) (IntOutput outName addr) slots
        = Except.ok (fun a => if a = addr then some (Payload.int i) else slots a)) ∧
    (∀ d : Nat,
      Serialize (DoubleInput name d) = Except.ok ⟨Kind.Double, Payload.double d⟩ ∧
      roundTrip (DoubleInput name d) (DoubleOutput outName addr) slots
        = Except.ok
            (fun a => if a = addr then some (Payload.double d) else slots a)) ∧
    (∀ v : String,
      Serialize (StringInput name v) = Except.ok ⟨Kind.String, Payload.string v⟩ ∧
      roundTrip (StringInput name v) (StringOutput outName addr) slots
        = Except.ok
            (fun a => if a = addr then some (Payload.string v) else slots a)) ∧
    (roundTrip (BoolInput "b" true) (BoolOutput "b" 0) emptySlots).toOption.bind
        (fun s => s 0) = some (Payload.bool true) ∧
    (roundTrip (IntInput "i" 42) (IntOutput "i" 1) emptySlots).toOption.bind
        (fun s => s 1) = some (Payload.int 42) ∧
    (roundTrip (DoubleInput "d" 0x404519999999999a) (DoubleOutput "d" 2)
        emptySlots).toOption.bind (fun s => s 2)
      = some (Payload.double 0x404519999999999a) ∧
    (roundTrip (StringInput "s" "hi") (StringOutput "s" 3)
        emptySlots).toOption.bind (fun s => s 3)
      = some (Payload.string "hi") ∧
    (∀ v : Payload,
      Deserialize (BoolOutput outName addr) (some ⟨Kind.Bool, v⟩) slots
        = Except.ok (fun a => if a = addr then some v else slots a) ∧
      Deserialize (IntOutput outName addr) (some ⟨Kind.Int, v⟩) slots
        = Except.ok (fun a => if a = addr then some v else slots a) ∧
      Deserialize (DoubleOutput outName addr) (some ⟨Kind.Double, v⟩) slots
        = Except.ok (fun a => if a = addr then some v else slots a) ∧
      Deserialize (StringOutput outName addr) (some ⟨Kind.String, v⟩) slots
        = Except.ok (fun a => if a = addr then some v else slots a)) ∧
    (Deserialize (BoolOutput outName addr) none slots
        = Except.error Error.InvalidOptionUse ∧
      Deserialize (IntOutput outName addr) none slots
        = Except.error Error.InvalidOptionUse ∧
      Deserialize (DoubleOutput outName addr) none slots
        = Except.error Error.InvalidOptionUse ∧
      Deserialize (StringOutput outName addr) none slots
        = Except.error Error.InvalidOptionUse) := by
  refine ⟨?_, ?_, ?_, ?_, ?_, ?_, ?_, ?_, ?_, ⟨rfl, rfl, rfl, rfl⟩⟩
  · intro b
    constructor
    · simp [Serialize, BoolInput, payloadFits]
    · simp [roundTrip, Serialize, Deserialize, BoolInput, BoolOutput, payloadFits]
  · intro i
    constructor
    · simp [Serialize, IntInput, payloadFits]
    · simp [roundTrip, Serialize, Deserialize, IntInput, IntOutput, payloadFits]
  · intro d
    constructor
    · simp [Serialize, DoubleInput, payloadFits]
    · simp [roundTrip, Serialize, Deserialize, DoubleInput, DoubleOutput,
        payloadFits]
  · intro v
    constructor
    · simp [Serialize, StringInput, payloadFits]
    · simp [roundTrip, Serialize, Deserialize, StringInput, StringOutput,
        payloadFits]
  · simp [roundTrip, Serialize, Deserialize, BoolInput, BoolOutput, payloadFits,
      Except.toOption]
  · simp [roundTrip, Serialize, Deserialize, IntInput, IntOutput, payloadFits,
      Except.toOption]
  · simp [roundTrip, Serialize, Deserialize, DoubleInput, DoubleOutput,
      payloadFits, Except.toOption]
  · simp [roundTrip, Serialize, Deserialize, StringInput, StringOutput,
      payloadFits, Except.toOption]
  · intro v
    refine ⟨?_, ?_, ?_, ?_⟩ <;>
      simp [Deserialize, BoolOutput, IntOutput, DoubleOutput, StringOutput]

end Govips
